import Mathlib

/-!
A shallow embedding of the redshirt codec library (formats 1 and 2).

The wrapped byte stream is modelled as an in-memory buffer with an absolute
position, mirroring the behaviour of the standard in-memory cursor the
repository uses in its tests (reads return what is available, writes overwrite
in place and extend at the end, seeks past the end are allowed, relative seeks
to a negative or address-width-overflowing position fail with an invalid-input
error).  Machine integers are modelled as Nat/Int with explicit bounds checks
where the source performs checked arithmetic; a Rust panic (slice index out of
range, unchecked u64 underflow, Result::unwrap on an Err) is modelled as the
Option value none.
-/

/-- The u64 address width bound, 2^64. -/
def U64 : Nat := 18446744073709551616

/-- Embeds xor_bytes from lib.rs on a single byte: b XOR 0b1000_0000. -/
def xorByte (b : Nat) : Nat := b ^^^ 128

/-- I/O error kinds produced by the modelled in-memory stream and the cursor:
the invalid-input error used for negative/overflowing seeks, and the
unexpected-eof error produced by read_exact on a too-short stream. -/
inductive IoErr
  | invalidInput
  | unexpectedEof
deriving DecidableEq

/-- Embeds the crate error type from error.rs. -/
inductive RError
  | io (e : IoErr)
  | badHeader
  | badChecksum
deriving DecidableEq

deriving instance DecidableEq for Except

/-- The wrapped in-memory byte stream: contents, absolute position, and an
instrumentation counter recording how many times its write operation has been
invoked (used to observe whether the cursor calls the underlying write). -/
structure ByteStream where
  data : List Nat
  pos : Nat
  writes : Nat
deriving DecidableEq

/-- Reading n bytes from the stream: returns the available prefix (at most n
bytes starting at the current position) and advances the position. -/
def streamRead (s : ByteStream) (n : Nat) : List Nat × ByteStream :=
  let bs := (s.data.drop s.pos).take n
  (bs, { s with pos := s.pos + bs.length })

/-- Writing bytes to the stream at the current position, overwriting existing
bytes, zero-filling any gap past the end, and extending the buffer as needed
(the behaviour of the standard in-memory cursor).  All bytes are accepted. -/
def streamWrite (s : ByteStream) (bs : List Nat) : ByteStream :=
  { data := s.data.take s.pos ++ List.replicate (s.pos - s.data.length) 0
      ++ bs ++ s.data.drop (s.pos + bs.length),
    pos := s.pos + bs.length,
    writes := s.writes + 1 }

/-- Seek requests, embedding std::io::SeekFrom. -/
inductive SeekReq
  | start (n : Nat)
  | current (d : Int)
  | fromEnd (d : Int)
deriving DecidableEq

/-- Seeking the wrapped stream itself: an absolute seek always succeeds (the
argument is already a u64); relative seeks fail with the invalid-input error
when the target is negative or does not fit the address width. -/
def streamSeek (s : ByteStream) (req : SeekReq) : ByteStream × Except IoErr Nat :=
  match req with
  | .start n => ({ s with pos := n }, .ok n)
  | .current d =>
      let t : Int := (s.pos : Int) + d
      if 0 ≤ t ∧ t < (U64 : Int) then ({ s with pos := t.toNat }, .ok t.toNat)
      else (s, .error .invalidInput)
  | .fromEnd d =>
      let t : Int := (s.data.length : Int) + d
      if 0 ≤ t ∧ t < (U64 : Int) then ({ s with pos := t.toNat }, .ok t.toNat)
      else (s, .error .invalidInput)

/-- Embeds cursor.rs Cursor state: the lazily captured base and the logical
offset (the wrapped stream itself is passed separately). -/
structure Cursor where
  base : Option Nat
  offset : Nat
deriving DecidableEq

/-- Embeds Cursor::new: no base captured yet, offset 0. -/
def Cursor.new : Cursor := ⟨none, 0⟩

/-- Embeds the Read impl of Cursor: read from the wrapped stream, xor the bytes
actually read, advance the logical offset by that count. -/
def cursorRead (c : Cursor) (s : ByteStream) (n : Nat) : List Nat × Cursor × ByteStream :=
  let r := streamRead s n
  (r.1.map xorByte, { c with offset := c.offset + r.1.length }, r.2)

/-- Embeds Cursor::write_chunk: take at most one 16384-byte chunk of the
buffer, xor it, write it to the wrapped stream, advance the offset by the
number of bytes accepted.  An empty buffer performs no write at all.  Returns
the transformed chunk and the byte count, mirroring the returned Chunk. -/
def cursorWriteChunk (c : Cursor) (s : ByteStream) (buf : List Nat) :
    Cursor × ByteStream × List Nat × Nat :=
  match buf with
  | [] => (c, s, [], 0)
  | _ =>
      let used := (buf.take 16384).map xorByte
      let s' := streamWrite s used
      ({ c with offset := c.offset + used.length }, s', used, used.length)

/-- Embeds the Write impl of Cursor (write = write_chunk, keeping only the
byte count). -/
def v1WriterWrite (c : Cursor) (s : ByteStream) (buf : List Nat) :
    Cursor × ByteStream × Nat :=
  ((cursorWriteChunk c s buf).1, (cursorWriteChunk c s buf).2.1,
    (cursorWriteChunk c s buf).2.2.2)

/-- Modelled from the spec: Cursor::write_direct is called by the format-2
writer in v2.rs but its definition is not present in the provided sources.
Per the spec it is the no-transform raw write path: it writes the caller's
already-transformed bytes to the wrapped stream unchanged and advances the
logical offset by the number of bytes accepted by the underlying write. -/
def writeDirect (c : Cursor) (s : ByteStream) (buf : List Nat) :
    Cursor × ByteStream × Nat :=
  ({ c with offset := c.offset + buf.length }, streamWrite s buf, buf.length)

/-- Embeds the Seek impl of Cursor from cursor.rs.  On first use the base is
captured as the wrapped stream's position minus the logical offset (a u64
subtraction: none models the panic on underflow).  FromStart checks
base + n against the address width; FromCurrent computes offset + delta in the
widened signed domain and rejects negative results; FromEnd seeks the wrapped
stream relative to its end and, when the result lands before base, re-seeks the
wrapped stream to Start(offset) and reports the invalid-input error.  On
success the offset is recomputed as the new absolute position minus base. -/
def cursorSeek (c : Cursor) (s : ByteStream) (req : SeekReq) :
    Option (Cursor × ByteStream × Except IoErr Nat) :=
  let cap : Option (Nat × Cursor) :=
    match c.base with
    | some v => some (v, c)
    | none =>
        if c.offset ≤ s.pos then
          some (s.pos - c.offset, { c with base := some (s.pos - c.offset) })
        else none
  match cap with
  | none => none
  | some (base, c1) =>
      match req with
      | .start n =>
          if base + n < U64 then
            match streamSeek s (.start (base + n)) with
            | (s', .ok v) =>
                if base ≤ v then
                  some ({ c1 with offset := v - base }, s', .ok (v - base))
                else none
            | (s', .error e) => some (c1, s', .error e)
          else some (c1, s, .error .invalidInput)
      | .current d =>
          if 0 ≤ (c1.offset : Int) + d then
            match streamSeek s (.current d) with
            | (s', .ok v) =>
                if base ≤ v then
                  some ({ c1 with offset := v - base }, s', .ok (v - base))
                else none
            | (s', .error e) => some (c1, s', .error e)
          else some (c1, s, .error .invalidInput)
      | .fromEnd d =>
          match streamSeek s (.fromEnd d) with
          | (s', .ok v) =>
              if base ≤ v then
                some ({ c1 with offset := v - base }, s', .ok (v - base))
              else
                some (c1, (streamSeek s' (.start c1.offset)).1, .error .invalidInput)
          | (s', .error e) => some (c1, s', .error e)

/-- A caller reading the stream to its end through the cursor, one at most
16384-byte read at a time, stopping at a zero-length read; fuel bounds the
loop for structural recursion. -/
def readAllAux : Nat → Cursor → ByteStream → List Nat × Cursor × ByteStream
  | 0, c, s => ([], c, s)
  | fuel + 1, c, s =>
      match cursorRead c s 16384 with
      | (bs, c', s') =>
          if bs = [] then ([], c', s')
          else
            let rest := readAllAux fuel c' s'
            (bs ++ rest.1, rest.2.1, rest.2.2)

/-- Reading everything from the current position to the end of the stream
through the cursor. -/
def readToEnd (c : Cursor) (s : ByteStream) : List Nat × Cursor × ByteStream :=
  readAllAux (s.data.length + 1) c s

/-- The raw full-stream read loop used by the format-2 reader for checksum
verification (reads the wrapped stream directly, no transform). -/
def rawReadAllAux : Nat → ByteStream → List Nat × ByteStream
  | 0, s => ([], s)
  | fuel + 1, s =>
      match streamRead s 16384 with
      | (bs, s') =>
          if bs = [] then ([], s')
          else
            let rest := rawReadAllAux fuel s'
            (bs ++ rest.1, rest.2)

/-- Raw read to end with enough fuel. -/
def rawReadAll (s : ByteStream) : List Nat × ByteStream :=
  rawReadAllAux (s.data.length + 1) s

/-- The format-1 marker, b"REDSHIRT\x00". -/
def MARKER1 : List Nat := [82, 69, 68, 83, 72, 73, 82, 84, 0]

/-- Embeds v1::Reader::new: read exactly 9 bytes, compare against the marker;
an invalid marker yields BadHeader, a too-short stream yields an I/O error. -/
def v1ReaderNew (s : ByteStream) : Except RError (Cursor × ByteStream) :=
  if s.data.length - s.pos < 9 then .error (.io .unexpectedEof)
  else
    let markerBuf := (s.data.drop s.pos).take 9
    let s1 : ByteStream := { s with pos := s.pos + 9 }
    if markerBuf = MARKER1 then .ok (Cursor.new, s1) else .error .badHeader

/-- Embeds v1::Writer::new: write the 9-byte marker, wrap in a cursor (the
in-memory write cannot fail). -/
def v1WriterNew (s : ByteStream) : Cursor × ByteStream :=
  (Cursor.new, streamWrite s MARKER1)

/-- The caller-side write_all loop over the format-1 writer: repeatedly write,
dropping the bytes accepted each time; fuel bounds the loop. -/
def v1WriteAllAux : Nat → Cursor → ByteStream → List Nat → Cursor × ByteStream
  | _, c, s, [] => (c, s)
  | 0, c, s, _ :: _ => (c, s)
  | fuel + 1, c, s, a :: t =>
      let r := cursorWriteChunk c s (a :: t)
      v1WriteAllAux fuel r.1 r.2.1 ((a :: t).drop r.2.2.2)

/-- write_all with enough fuel. -/
def v1WriteAll (c : Cursor) (s : ByteStream) (d : List Nat) : Cursor × ByteStream :=
  v1WriteAllAux (d.length + 1) c s d

/-- The empty in-memory stream. -/
def emptyStream : ByteStream := ⟨[], 0, 0⟩

/-- Format-1 encoding of a byte sequence: create a writer over an empty
stream, write all the data, unwrap, and keep the stream contents. -/
def v1Encode (d : List Nat) : List Nat :=
  (v1WriteAll (v1WriterNew emptyStream).1 (v1WriterNew emptyStream).2 d).2.data

/-- Format-1 decoding: construct a reader over the bytes and read to the end. -/
def v1Decode (bytes : List Nat) : Except RError (List Nat) :=
  match v1ReaderNew ⟨bytes, 0, 0⟩ with
  | .ok (c, s) => .ok (readToEnd c s).1
  | .error e => .error e

/-- Seek a freshly constructed format-1 reader to a logical start offset and
read everything from there (none if construction or the seek fails). -/
def v1SeekRead (bytes : List Nat) (n : Nat) : Option (List Nat) :=
  match v1ReaderNew ⟨bytes, 0, 0⟩ with
  | .error _ => none
  | .ok (c, s) =>
      match cursorSeek c s (.start n) with
      | some (c2, s2, .ok _) => some (readToEnd c2 s2).1
      | _ => none

/-- Truncation to a 32-bit word. -/
def w32 (n : Nat) : Nat := n % 4294967296

/-- 32-bit left rotation. -/
def rotl (k n : Nat) : Nat :=
  w32 ((w32 n) <<< k ||| (w32 n) >>> (32 - k))

/-- Big-endian 8-byte encoding of a length in bits (SHA-1 padding tail). -/
def lenBytes (n : Nat) : List Nat :=
  [(n >>> 56) % 256, (n >>> 48) % 256, (n >>> 40) % 256, (n >>> 32) % 256,
   (n >>> 24) % 256, (n >>> 16) % 256, (n >>> 8) % 256, n % 256]

/-- SHA-1 padding: append 0x80, zero bytes to 56 mod 64, and the bit length. -/
def sha1Pad (msg : List Nat) : List Nat :=
  msg ++ [128] ++ List.replicate ((119 - msg.length % 64) % 64) 0
    ++ lenBytes (msg.length * 8)

/-- Big-endian packing of bytes into 32-bit words, four at a time. -/
def bytesToWords : List Nat → List Nat
  | a :: b :: c :: d :: rest =>
      (((a % 256) <<< 24) ||| ((b % 256) <<< 16) ||| ((c % 256) <<< 8) ||| (d % 256))
        :: bytesToWords rest
  | _ => []

/-- Split the padded message into 64-byte blocks (fuel bounds the loop). -/
def toBlocksAux : Nat → List Nat → List (List Nat)
  | 0, _ => []
  | _ + 1, [] => []
  | fuel + 1, l => l.take 64 :: toBlocksAux fuel (l.drop 64)

/-- Extend a 16-word schedule to 80 words. -/
def extendWords : Nat → List Nat → List Nat
  | 0, ws => ws
  | k + 1, ws =>
      let n := ws.length
      let x := ws.getD (n - 3) 0 ^^^ ws.getD (n - 8) 0
        ^^^ ws.getD (n - 14) 0 ^^^ ws.getD (n - 16) 0
      extendWords k (ws ++ [rotl 1 x])

/-- The SHA-1 round function, by round quarter. -/
def sha1F (i b c d : Nat) : Nat :=
  if i < 20 then (b &&& c) ||| ((b ^^^ 4294967295) &&& d)
  else if i < 40 then b ^^^ c ^^^ d
  else if i < 60 then (b &&& c) ||| (b &&& d) ||| (c &&& d)
  else b ^^^ c ^^^ d

/-- The SHA-1 round constants, by round quarter. -/
def sha1K (i : Nat) : Nat :=
  if i < 20 then 1518500249
  else if i < 40 then 1859775393
  else if i < 60 then 2400959708
  else 3395469782

/-- The 80 SHA-1 rounds over one schedule. -/
def sha1Rounds : Nat → List Nat → Nat × Nat × Nat × Nat × Nat → Nat × Nat × Nat × Nat × Nat
  | _, [], st => st
  | i, wd :: ws, (a, b, c, d, e) =>
      let t := w32 (rotl 5 a + sha1F i b c d + e + sha1K i + wd)
      sha1Rounds (i + 1) ws (t, a, rotl 30 b, c, d)

/-- One SHA-1 block compression step. -/
def sha1Block (h : Nat × Nat × Nat × Nat × Nat) (block : List Nat) :
    Nat × Nat × Nat × Nat × Nat :=
  let ws := extendWords 64 (bytesToWords block)
  let r := sha1Rounds 0 ws h
  (w32 (h.1 + r.1), w32 (h.2.1 + r.2.1), w32 (h.2.2.1 + r.2.2.1),
   w32 (h.2.2.2.1 + r.2.2.2.1), w32 (h.2.2.2.2 + r.2.2.2.2))

/-- The five 32-bit state words of SHA-1 over a whole message. -/
def sha1Core (msg : List Nat) : Nat × Nat × Nat × Nat × Nat :=
  (toBlocksAux (sha1Pad msg).length (sha1Pad msg)).foldl sha1Block
    (1732584193, 4023233417, 2562383102, 271733878, 3285377520)

/-- Big-endian 4-byte encoding of a 32-bit word. -/
def wordBytes (w : Nat) : List Nat :=
  [w / 16777216 % 256, w / 65536 % 256, w / 256 % 256, w % 256]

/-- The raw 20-byte SHA-1 digest of a message. -/
def sha1 (msg : List Nat) : List Nat :=
  ([(sha1Core msg).1, (sha1Core msg).2.1, (sha1Core msg).2.2.1,
    (sha1Core msg).2.2.2.1, (sha1Core msg).2.2.2.2].map wordBytes).flatten

/-- Embeds the digest post-processing loop of ChecksumBuilder::finish in
v2.rs: reverse each exact 4-byte chunk of the digest in place (any shorter
remainder is left untouched, as with chunks_exact_mut). -/
def reverseWords : List Nat → List Nat
  | a :: b :: c :: d :: rest => d :: c :: b :: a :: reverseWords rest
  | rest => rest

/-- Stated from the spec's words, for comparison: the digest bytes are grouped
into four-byte words and the byte order within each word is reversed. -/
def toWords4 : List Nat → List (List Nat)
  | a :: b :: c :: d :: rest => [a, b, c, d] :: toWords4 rest
  | [] => []
  | rest => [rest]

/-- Stated from the spec's words: word-local byte swap of a digest. -/
def wordSwapSpec (l : List Nat) : List Nat :=
  ((toWords4 l).map List.reverse).flatten

/-- Embeds ChecksumBuilder::finish applied to the accumulated fed bytes:
the raw SHA-1 digest with each 4-byte word reversed. -/
def checksumFinish (fed : List Nat) : List Nat :=
  reverseWords (sha1 fed)

/-- The format-2 marker, b"REDSHRT2\x00". -/
def MARKER2 : List Nat := [82, 69, 68, 83, 72, 82, 84, 50, 0]

/-- Embeds v2::Writer state: the optional cursor-plus-stream (None once the
digest has been written out) and the bytes fed to the checksum so far (the
streaming SHA-1 context is modelled by the accumulated input). -/
structure V2Writer where
  dst : Option (Cursor × ByteStream)
  checksum : List Nat
deriving DecidableEq

/-- Embeds v2::Writer::new: write the 29-byte header (marker followed by a
20-byte placeholder digest) and wrap the stream in a cursor with a fresh
checksum accumulator. -/
def v2WriterNew (s : ByteStream) : V2Writer :=
  { dst := some (Cursor.new, streamWrite s (MARKER2 ++ List.replicate 20 0)),
    checksum := [] }

/-- Embeds the Write impl of v2::Writer: the source slices a 16384-byte
scratch array with the caller's full buffer length, which panics (none) when
the buffer is longer than 16384 bytes; otherwise it xors the whole buffer,
writes it through the cursor's direct (no-transform) path, and feeds the bytes
actually written to the checksum. -/
def v2WriterWrite (w : V2Writer) (buf : List Nat) : Option (V2Writer × Nat) :=
  if buf.length ≤ 16384 then
    match w.dst with
    | none => none
    | some (c, s) =>
        let used := buf.map xorByte
        let r := writeDirect c s used
        some (⟨some (r.1, r.2.1), w.checksum ++ used.take r.2.2⟩, r.2.2)
  else none

/-- The caller-side write_all loop over the format-2 writer (write_all passes
the whole remaining buffer to each write call). -/
def v2WriteAllAux : Nat → V2Writer → List Nat → Option V2Writer
  | _, w, [] => some w
  | 0, _, _ :: _ => none
  | fuel + 1, w, a :: t =>
      match v2WriterWrite w (a :: t) with
      | none => none
      | some (w', len) =>
          if len = 0 then none else v2WriteAllAux fuel w' ((a :: t).drop len)

/-- write_all with enough fuel. -/
def v2WriteAll (w : V2Writer) (d : List Nat) : Option V2Writer :=
  v2WriteAllAux (d.length + 1) w d

/-- Embeds v2::Writer::write_digest as invoked by into_inner: record the
cursor's logical offset, seek the wrapped stream directly to absolute
position 9, write the finalized 20-byte digest over the placeholder, then
seek the cursor back to the recorded offset (the source unwraps this seek, so
a failed or panicking seek is a fault, none) and return the inner stream. -/
def v2IntoInner (w : V2Writer) : Option ByteStream :=
  match w.dst with
  | none => none
  | some (c, s) =>
      let offset := c.offset
      let s1 := (streamSeek s (.start 9)).1
      let digest := checksumFinish w.checksum
      let s2 := streamWrite s1 digest
      match cursorSeek c s2 (.start offset) with
      | some (_, s3, .ok _) => some s3
      | _ => none

/-- The wrapped stream's absolute position inside a live format-2 writer. -/
def v2WriterPos (w : V2Writer) : Option Nat :=
  w.dst.map (fun p => p.2.pos)

/-- Embeds v2::Reader::new: read the 29-byte header, validate the marker
first, then stream the entire remaining contents through the checksum, compare
the computed digest against the stored one, and on success seek back to just
after the header and wrap the stream in a cursor. -/
def v2ReaderNew (s : ByteStream) : Except RError (Cursor × ByteStream) :=
  if s.data.length - s.pos < 29 then .error (.io .unexpectedEof)
  else
    let header := (s.data.drop s.pos).take 29
    let s1 : ByteStream := { s with pos := s.pos + 29 }
    if header.take 9 = MARKER2 then
      let r := rawReadAll s1
      let digestA := header.drop 9
      let digestB := checksumFinish r.1
      if digestA = digestB then
        .ok (Cursor.new, (streamSeek r.2 (.start 29)).1)
      else .error .badChecksum
    else .error .badHeader

/-- Format-2 encoding of a byte sequence: writer over an empty stream, write
all data, finalize via into_inner, keep the stream contents (none when any
step faults). -/
def v2Encode (d : List Nat) : Option (List Nat) :=
  match v2WriteAll (v2WriterNew emptyStream) d with
  | none => none
  | some w => (v2IntoInner w).map ByteStream.data

/-- Format-2 decoding: construct a reader over the bytes and read to the end. -/
def v2Decode (bytes : List Nat) : Except RError (List Nat) :=
  match v2ReaderNew ⟨bytes, 0, 0⟩ with
  | .ok (c, s) => .ok (readToEnd c s).1
  | .error e => .error e

/-- The full format-2 round trip: encode, then decode the resulting stream
(none when encoding faults). -/
def v2Roundtrip (d : List Nat) : Option (Except RError (List Nat)) :=
  (v2Encode d).map v2Decode

set_option maxRecDepth 100000

/-- xorByte is an involution. -/
theorem xorByte_xorByte (b : Nat) : xorByte (xorByte b) = b := by
  simp [xorByte, Nat.xor_assoc]

/-- Mapping xorByte twice restores the list. -/
theorem map_xorByte_xorByte (l : List Nat) : (l.map xorByte).map xorByte = l := by
  induction l with
  | nil => rfl
  | cons a t ih => simp [xorByte_xorByte, ih]

/-- Dropping the length of a take is the same as dropping the take bound. -/
theorem drop_length_take (l : List Nat) (n : Nat) :
    l.drop (l.take n).length = l.drop n := by
  rw [List.length_take]
  rcases Nat.le_total n l.length with h | h
  · rw [Nat.min_eq_left h]
  · rw [Nat.min_eq_right h, List.drop_eq_nil_of_le h,
      List.drop_eq_nil_of_le (Nat.le_refl _)]

/-- A take followed by the matching drop reassembles the list. -/
theorem take_append_drop_length (l : List Nat) (n : Nat) :
    l.take n ++ l.drop (l.take n).length = l := by
  rw [drop_length_take, List.take_append_drop]

/-- Writing at the end of the stream appends the bytes. -/
theorem streamWrite_at_end (s : ByteStream) (bs : List Nat) (h : s.pos = s.data.length) :
    streamWrite s bs = ⟨s.data ++ bs, s.pos + bs.length, s.writes + 1⟩ := by
  unfold streamWrite
  simp [h, List.drop_eq_nil_of_le (Nat.le_add_right _ _)]

/-- Reading to the end through the cursor yields the xor of the remaining
stream contents, given enough fuel. -/
theorem readAllAux_fst (fuel : Nat) :
    ∀ (c : Cursor) (s : ByteStream), s.data.length - s.pos ≤ fuel →
      (readAllAux fuel c s).1 = (s.data.drop s.pos).map xorByte := by
  induction fuel with
  | zero =>
      intro c s h
      have h9 : s.data.length ≤ s.pos := by omega
      simp [readAllAux, List.drop_eq_nil_of_le h9]
  | succ fuel ih =>
      intro c s h
      simp only [readAllAux, cursorRead, streamRead]
      set bs := (s.data.drop s.pos).take 16384 with hbs
      by_cases hnil : bs = []
      · have hd : s.data.drop s.pos = [] := by
          rcases List.take_eq_nil_iff.mp (hbs ▸ hnil) with h1 | h1
          · omega
          · exact h1
        simp [hnil, hd]
      · have hmap : ¬ (bs.map xorByte = []) := by
          simpa using hnil
        have hlen1 : 1 ≤ bs.length := by
          rcases bs with _ | _
          · exact absurd rfl hnil
          · simp
        have hlen : bs.length ≤ s.data.length - s.pos := by
          have h1 := List.length_take 16384 (s.data.drop s.pos)
          have h2 := List.length_drop s.pos s.data
          rw [hbs, h1, h2]
          omega
        have hrec : s.data.length - (s.pos + bs.length) ≤ fuel := by omega
        rw [if_neg hmap]
        have hih := ih { base := c.base, offset := c.offset + bs.length }
          { data := s.data, pos := s.pos + bs.length, writes := s.writes } hrec
        simp only at hih
        refine Eq.trans rfl ?_
        show bs.map xorByte ++ (readAllAux fuel { base := c.base, offset := c.offset + bs.length }
          { data := s.data, pos := s.pos + bs.length, writes := s.writes }).1
          = (s.data.drop s.pos).map xorByte
        rw [hih, ← List.map_append, ← List.drop_drop]
        congr 1
        rw [hbs]
        exact take_append_drop_length _ _

/-- The raw checksum-verification read loop consumes exactly the remaining
stream contents and leaves the data untouched, given enough fuel. -/
theorem rawReadAllAux_spec (fuel : Nat) :
    ∀ (s : ByteStream), s.data.length - s.pos ≤ fuel →
      (rawReadAllAux fuel s).1 = s.data.drop s.pos ∧
      (rawReadAllAux fuel s).2.data = s.data := by
  induction fuel with
  | zero =>
      intro s h
      have h9 : s.data.length ≤ s.pos := by omega
      simp [rawReadAllAux, List.drop_eq_nil_of_le h9]
  | succ fuel ih =>
      intro s h
      simp only [rawReadAllAux, streamRead]
      set bs := (s.data.drop s.pos).take 16384 with hbs
      by_cases hnil : bs = []
      · have hd : s.data.drop s.pos = [] := by
          rcases List.take_eq_nil_iff.mp (hbs ▸ hnil) with h1 | h1
          · omega
          · exact h1
        simp [hnil, hd]
      · have hlen1 : 1 ≤ bs.length := by
          rcases bs with _ | _
          · exact absurd rfl hnil
          · simp
        have hlen : bs.length ≤ s.data.length - s.pos := by
          have h1 := List.length_take 16384 (s.data.drop s.pos)
          have h2 := List.length_drop s.pos s.data
          rw [hbs, h1, h2]
          omega
        have hrec : s.data.length - (s.pos + bs.length) ≤ fuel := by omega
        rw [if_neg hnil]
        have hih := ih { data := s.data, pos := s.pos + bs.length, writes := s.writes } hrec
        simp only at hih
        constructor
        · refine Eq.trans rfl ?_
          show bs ++ (rawReadAllAux fuel
            { data := s.data, pos := s.pos + bs.length, writes := s.writes }).1
            = s.data.drop s.pos
          rw [hih.1, ← List.drop_drop]
          rw [hbs]
          exact take_append_drop_length _ _
        · exact hih.2

/-- The format-1 write_all loop, run at the end of the stream, appends the
xor-transformed bytes and leaves the position at the new end. -/
theorem v1WriteAllAux_spec (fuel : Nat) :
    ∀ (c : Cursor) (s : ByteStream) (buf : List Nat),
      buf.length ≤ fuel → s.pos = s.data.length →
      (v1WriteAllAux fuel c s buf).2.data = s.data ++ buf.map xorByte ∧
      (v1WriteAllAux fuel c s buf).2.pos = s.data.length + buf.length := by
  induction fuel with
  | zero =>
      intro c s buf hf hp
      have : buf = [] := List.eq_nil_of_length_eq_zero (by omega)
      subst this
      simp [v1WriteAllAux, hp]
  | succ fuel ih =>
      intro c s buf hf hp
      rcases buf with _ | ⟨a, t⟩
      · simp [v1WriteAllAux, hp]
      · simp only [v1WriteAllAux, cursorWriteChunk]
        set used := ((a :: t).take 16384).map xorByte with hused
        have husedlen : used.length = ((a :: t).take 16384).length := by
          rw [hused, List.length_map]
        have hslen : 1 ≤ used.length := by
          rw [husedlen]
          simp [List.length_take]
        have hw := streamWrite_at_end s used hp
        rw [hw]
        have hdrop : (a :: t).drop used.length = (a :: t).drop 16384 := by
          rw [husedlen]
          exact drop_length_take _ _
        have hrec : ((a :: t).drop 16384).length ≤ fuel := by
          rw [List.length_drop]
          have := List.length_cons a t
          omega
        have hpos' : (s.pos + used.length) = (s.data ++ used).length := by
          rw [List.length_append, hp]
        have hih := ih { base := c.base, offset := c.offset + used.length }
          ⟨s.data ++ used, s.pos + used.length, s.writes + 1⟩
          ((a :: t).drop 16384) hrec hpos'
        simp only at hih
        rw [hdrop]
        constructor
        · rw [hih.1, hused, List.append_assoc, ← List.map_append,
            List.take_append_drop]
        · rw [hih.2, List.length_append, List.length_map, List.length_take,
            List.length_drop]
          rcases Nat.le_total 16384 (a :: t).length with hle | hle
          · rw [Nat.min_eq_left hle]
            omega
          · rw [Nat.min_eq_right hle]
            omega

/-- The format-1 writer construction over the empty stream. -/
theorem v1WriterNew_empty : (v1WriterNew emptyStream).2 = ⟨MARKER1, 9, 1⟩ := by decide

/-- Format-1 encoding writes the marker followed by the xor of the payload:
every payload byte as stored equals the plaintext byte xor 0x80. -/
theorem v1Encode_eq (d : List Nat) : v1Encode d = MARKER1 ++ d.map xorByte := by
  unfold v1Encode v1WriteAll
  rw [v1WriterNew_empty]
  exact (v1WriteAllAux_spec (d.length + 1) (v1WriterNew emptyStream).1
    ⟨MARKER1, 9, 1⟩ d (by omega) (by decide)).1

/-- Format-1 decoding of a marker-led stream returns the xor of the payload. -/
theorem v1Decode_any (p : List Nat) : v1Decode (MARKER1 ++ p) = .ok (p.map xorByte) := by
  unfold v1Decode v1ReaderNew
  have hlen : ¬ ((⟨MARKER1 ++ p, 0, 0⟩ : ByteStream).data.length
      - (⟨MARKER1 ++ p, 0, 0⟩ : ByteStream).pos < 9) := by
    simp [MARKER1]
  rw [if_neg hlen]
  have hmb : ((⟨MARKER1 ++ p, 0, 0⟩ : ByteStream).data.drop
      (⟨MARKER1 ++ p, 0, 0⟩ : ByteStream).pos).take 9 = MARKER1 := by
    show ((MARKER1 ++ p).drop 0).take 9 = MARKER1
    rw [List.drop_zero]
    exact List.take_left' (by decide)
  rw [hmb, if_pos rfl]
  show Except.ok (readAllAux ((MARKER1 ++ p).length + 1) Cursor.new
      ⟨MARKER1 ++ p, 0 + 9, 0⟩).1 = Except.ok (p.map xorByte)
  congr 1
  rw [readAllAux_fst ((MARKER1 ++ p).length + 1) Cursor.new ⟨MARKER1 ++ p, 0 + 9, 0⟩
      (by simp [MARKER1]; omega)]
  show ((MARKER1 ++ p).drop 9).map xorByte = p.map xorByte
  rw [List.drop_left' (by decide : MARKER1.length = 9)]

/-- The word-wise reversal of a five-word digest agrees with the spec's
word-local byte swap (both reduce on the explicit 4-byte word structure). -/
theorem reverseWords_words5 (a b c d e : Nat) :
    reverseWords (([a, b, c, d, e].map wordBytes).flatten) =
      wordSwapSpec (([a, b, c, d, e].map wordBytes).flatten) := by
  rfl

/-- The finalized digest is the word-local byte swap of the raw SHA-1 digest. -/
theorem checksumFinish_eq (bs : List Nat) :
    checksumFinish bs = wordSwapSpec (sha1 bs) := by
  unfold checksumFinish sha1
  exact reverseWords_words5 _ _ _ _ _

/-- The finalized digest always has exactly 20 bytes. -/
theorem checksumFinish_length (bs : List Nat) : (checksumFinish bs).length = 20 := by
  unfold checksumFinish sha1
  show (reverseWords (([(sha1Core bs).1, (sha1Core bs).2.1, (sha1Core bs).2.2.1,
    (sha1Core bs).2.2.2.1, (sha1Core bs).2.2.2.2].map wordBytes).flatten)).length = 20
  generalize (sha1Core bs).1 = a
  generalize (sha1Core bs).2.1 = b
  generalize (sha1Core bs).2.2.1 = c
  generalize (sha1Core bs).2.2.2.1 = d
  generalize (sha1Core bs).2.2.2.2 = e
  rfl

/-- The format-2 writer construction over the empty stream. -/
theorem v2WriterNew_empty :
    v2WriterNew emptyStream =
      ⟨some (Cursor.new, ⟨MARKER2 ++ List.replicate 20 0, 29, 1⟩), []⟩ := by decide

/-- A single format-2 write of an in-bounds buffer: the whole buffer is
xor-transformed, written directly, and fed to the checksum. -/
theorem v2WriterWrite_small (c : Cursor) (s : ByteStream) (acc buf : List Nat)
    (h : buf.length ≤ 16384) :
    v2WriterWrite ⟨some (c, s), acc⟩ buf =
      some (⟨some ({ c with offset := c.offset + buf.length },
        streamWrite s (buf.map xorByte)), acc ++ buf.map xorByte⟩, buf.length) := by
  unfold v2WriterWrite writeDirect
  rw [if_pos h]
  simp [List.take_length]

/-- write_all through the format-2 writer for an in-bounds nonempty buffer
finishes in a single write call. -/
theorem v2WriteAll_small (c : Cursor) (s : ByteStream) (acc d : List Nat)
    (h : d.length ≤ 16384) (hne : d ≠ []) :
    v2WriteAll ⟨some (c, s), acc⟩ d =
      some ⟨some ({ c with offset := c.offset + d.length },
        streamWrite s (d.map xorByte)), acc ++ d.map xorByte⟩ := by
  rcases d with _ | ⟨a, t⟩
  · exact absurd rfl hne
  · unfold v2WriteAll v2WriteAllAux
    rw [v2WriterWrite_small c s acc (a :: t) h]
    dsimp only
    rw [if_neg (by simp : ¬ ((a :: t).length = 0)), List.drop_length]
    rfl

/-- A FromStart seek on a cursor whose base is not yet captured: the base is
derived from the stream position and the offset, and the wrapped stream is
seeked to base + n. -/
theorem cursorSeek_start_fresh (off : Nat) (s : ByteStream) (n : Nat)
    (h1 : off ≤ s.pos) (h2 : (s.pos - off) + n < U64) :
    cursorSeek ⟨none, off⟩ s (.start n) =
      some (⟨some (s.pos - off), n⟩, { s with pos := (s.pos - off) + n }, .ok n) := by
  unfold cursorSeek
  dsimp only
  rw [if_pos h1]
  dsimp only
  rw [if_pos h2]
  unfold streamSeek
  dsimp only
  rw [if_pos (Nat.le_add_right _ _)]
  rw [Nat.add_sub_cancel_left]

/-- Finalization of a live format-2 writer whose logical offset is at most 29:
the digest is patched in at absolute position 9 and the wrapped stream ends at
absolute position 29 (the cursor seek-back resolves there because the base is
captured only now, as 29 minus the offset). -/
theorem v2IntoInner_spec (off : Nat) (s : ByteStream) (acc : List Nat) (h : off ≤ 29) :
    v2IntoInner ⟨some (⟨none, off⟩, s), acc⟩ =
      some ⟨s.data.take 9 ++ List.replicate (9 - s.data.length) 0
        ++ checksumFinish acc ++ s.data.drop 29, 29, s.writes + 1⟩ := by
  unfold v2IntoInner
  dsimp only
  show (match cursorSeek ⟨none, off⟩
      (streamWrite { s with pos := 9 } (checksumFinish acc)) (.start off) with
    | some (_, s3, .ok _) => some s3
    | _ => none) = _
  have hw : streamWrite { s with pos := 9 } (checksumFinish acc) =
      ⟨s.data.take 9 ++ List.replicate (9 - s.data.length) 0
        ++ checksumFinish acc ++ s.data.drop 29, 29, s.writes + 1⟩ := by
    unfold streamWrite
    dsimp only
    rw [checksumFinish_length]
  rw [hw]
  rw [cursorSeek_start_fresh off _ off (by dsimp only; omega)
    (by dsimp only; show 29 - off + off < U64; unfold U64; omega)]
  dsimp only
  rw [Nat.sub_add_cancel h]

/-- Format-2 encoding of an in-bounds payload produces the marker, the
finalized digest of the obfuscated payload, and the obfuscated payload. -/
theorem v2Encode_spec (d : List Nat) (h : d.length ≤ 29) :
    v2Encode d = some (MARKER2 ++ checksumFinish (d.map xorByte) ++ d.map xorByte) := by
  rcases d with _ | ⟨a, t⟩
  · decide
  · unfold v2Encode
    rw [v2WriterNew_empty]
    have hwa := v2WriteAll_small Cursor.new ⟨MARKER2 ++ List.replicate 20 0, 29, 1⟩
      [] (a :: t) (by omega) (by simp)
    rw [hwa]
    dsimp only
    set used := (a :: t).map xorByte with hused
    have husedlen : used.length = (a :: t).length := by
      rw [hused, List.length_map]
    have hw : streamWrite ⟨MARKER2 ++ List.replicate 20 0, 29, 1⟩ used =
        ⟨(MARKER2 ++ List.replicate 20 0) ++ used, 29 + used.length, 2⟩ :=
      streamWrite_at_end ⟨MARKER2 ++ List.replicate 20 0, 29, 1⟩ used (by decide)
    rw [hw]
    have hii := v2IntoInner_spec (0 + (a :: t).length)
      ⟨(MARKER2 ++ List.replicate 20 0) ++ used, 29 + used.length, 2⟩
      ([] ++ used) (by omega)
    show (v2IntoInner ⟨some (⟨none, 0 + (a :: t).length⟩,
      ⟨(MARKER2 ++ List.replicate 20 0) ++ used, 29 + used.length, 2⟩), [] ++ used⟩).map
        ByteStream.data = _
    rw [hii]
    dsimp only [Option.map_some]
    have h1 : ((MARKER2 ++ List.replicate 20 0) ++ used).take 9 = MARKER2 := by
      rw [List.append_assoc]
      exact List.take_left' (by decide)
    have h2 : ((MARKER2 ++ List.replicate 20 0) ++ used).drop 29 = used := by
      exact List.drop_left' (by decide)
    have h3 : 9 - ((MARKER2 ++ List.replicate 20 0) ++ used).length = 0 := by
      rw [List.length_append]
      have : (MARKER2 ++ List.replicate 20 0).length = 29 := by decide
      omega
    rw [h1, h2, h3, List.nil_append]
    simp [List.append_nil]

/-- Format-2 decoding of a stream built from the marker, the digest of the
stored payload, and the stored payload succeeds and returns the xor of the
payload. -/
theorem v2Decode_spec (p : List Nat) :
    v2Decode (MARKER2 ++ checksumFinish p ++ p) = .ok (p.map xorByte) := by
  have hdg : (checksumFinish p).length = 20 := checksumFinish_length p
  have hhd : (MARKER2 ++ checksumFinish p).length = 29 := by
    rw [List.length_append, hdg]
    rfl
  unfold v2Decode v2ReaderNew
  have hlen : ¬ ((⟨MARKER2 ++ checksumFinish p ++ p, 0, 0⟩ : ByteStream).data.length
      - (⟨MARKER2 ++ checksumFinish p ++ p, 0, 0⟩ : ByteStream).pos < 29) := by
    dsimp only
    rw [List.length_append, hhd]
    omega
  rw [if_neg hlen]
  dsimp only
  have hheader : ((MARKER2 ++ checksumFinish p ++ p).drop 0).take 29
      = MARKER2 ++ checksumFinish p := by
    rw [List.drop_zero]
    exact List.take_left' hhd
  rw [hheader]
  have hm : (MARKER2 ++ checksumFinish p).take 9 = MARKER2 :=
    List.take_left' (by decide)
  rw [hm, if_pos rfl]
  have hraw := rawReadAllAux_spec
    ((⟨MARKER2 ++ checksumFinish p ++ p, 0 + 29, 0⟩ : ByteStream).data.length + 1)
    ⟨MARKER2 ++ checksumFinish p ++ p, 0 + 29, 0⟩
    (by dsimp only; omega)
  unfold rawReadAll
  have hfed : (rawReadAllAux
      ((⟨MARKER2 ++ checksumFinish p ++ p, 0 + 29, 0⟩ : ByteStream).data.length + 1)
      ⟨MARKER2 ++ checksumFinish p ++ p, 0 + 29, 0⟩).1 = p := by
    rw [hraw.1]
    show (MARKER2 ++ checksumFinish p ++ p).drop (0 + 29) = p
    rw [Nat.zero_add]
    exact List.drop_left' hhd
  rw [hfed]
  have hda : (MARKER2 ++ checksumFinish p).drop 9 = checksumFinish p :=
    List.drop_left' (by decide)
  rw [hda, if_pos rfl]
  dsimp only
  set s2 := (rawReadAllAux
      ((⟨MARKER2 ++ checksumFinish p ++ p, 0 + 29, 0⟩ : ByteStream).data.length + 1)
      ⟨MARKER2 ++ checksumFinish p ++ p, 0 + 29, 0⟩).2 with hs2
  have hs2d : s2.data = MARKER2 ++ checksumFinish p ++ p := hraw.2
  show Except.ok (readToEnd Cursor.new { s2 with pos := 29 }).1 = _
  unfold readToEnd
  rw [readAllAux_fst ({ s2 with pos := 29 } : ByteStream).data.length.succ Cursor.new
    { s2 with pos := 29 } (by omega)]
  dsimp only
  rw [hs2d]
  rw [List.drop_left' hhd]

/-- The repository's own format-2 test vector: encoding "Hello world!"
produces exactly the stream the tests in v2.rs expect, validating the SHA-1
embedding and the writer pipeline bit for bit. -/
theorem v2Encode_test_vector :
    v2Encode [72, 101, 108, 108, 111, 32, 119, 111, 114, 108, 100, 33] =
      some (MARKER2 ++ [52, 84, 38, 43, 74, 191, 41, 29, 11, 142, 96, 217,
        161, 118, 225, 20, 125, 223, 5, 212]
        ++ [200, 229, 236, 236, 239, 160, 247, 239, 242, 236, 228, 161]) := by
  decide

/-- Claim C1 (counterexample): the format-2 round trip fails as stated: for
the 30-byte payload of zeros, finalization faults (the cursor seek-back
mis-derives the base from 29 minus the offset, which underflows), so encoding
does not even produce a stream. -/
theorem c1_v2_counterexample : v2Roundtrip (List.replicate 30 0) = none := by decide

/-- Claim C1 (amended): the format-1 round trip restores any byte sequence;
the format-2 round trip restores any byte sequence of length at most 29
(writing and finalizing longer sequences faults). -/
theorem c1_roundtrip :
    (∀ d : List Nat, v1Decode (v1Encode d) = .ok d) ∧
    (∀ d : List Nat, d.length ≤ 29 → v2Roundtrip d = some (.ok d)) := by
  constructor
  · intro d
    rw [v1Encode_eq, v1Decode_any, map_xorByte_xorByte]
  · intro d h
    unfold v2Roundtrip
    rw [v2Encode_spec d h]
    show some (v2Decode (MARKER2 ++ checksumFinish (d.map xorByte) ++ d.map xorByte))
      = some (.ok d)
    rw [v2Decode_spec, map_xorByte_xorByte]

/-- Witness for C1 at concrete inputs. -/
theorem c1_roundtrip_witness :
    v1Decode (v1Encode [236, 1, 77]) = .ok [236, 1, 77] ∧
    v2Roundtrip [10, 20, 30] = some (.ok [10, 20, 30]) :=
  ⟨c1_roundtrip.1 [236, 1, 77], c1_roundtrip.2 [10, 20, 30] (by decide)⟩

/-- Claim C2: evaluating the format-2 writer's write at a 16385-byte buffer:
the source slices its 16384-byte scratch array with the caller's buffer
length, so the call faults instead of truncating to one chunk. -/
theorem c2_write_fault :
    v2WriterWrite (v2WriterNew emptyStream) (List.replicate 16385 0) = none := by
  unfold v2WriterWrite
  rw [if_neg (by rw [List.length_replicate]; omega)]

/-- Claim C3: a rejected FromEnd seek does not restore the pre-call stream
position.  Over a fresh format-1 reader (stream position 9, base captured as
9, offset 0), FromEnd(-4) on a 12-byte stream targets absolute 8 < base and is
rejected with the invalid-input error, but the restore path seeks the wrapped
stream to Start(offset) = 0 rather than back to 9. -/
theorem c3_from_end_restore :
    v1ReaderNew ⟨MARKER1 ++ [97, 98, 99], 0, 0⟩ =
      .ok (⟨none, 0⟩, ⟨MARKER1 ++ [97, 98, 99], 9, 0⟩) ∧
    cursorSeek ⟨none, 0⟩ ⟨MARKER1 ++ [97, 98, 99], 9, 0⟩ (.fromEnd (-4)) =
      some (⟨some 9, 0⟩, ⟨MARKER1 ++ [97, 98, 99], 0, 0⟩, .error .invalidInput) := by
  constructor
  · decide
  · decide

/-- Claim C4: finalization of a format-2 writer that wrote the 2-byte payload
(65, 66).  Immediately before finalization the wrapped stream is at absolute
31 (29-byte header plus offset 2); after finalization it is at absolute 29,
not 31, because the seek-back goes through the cursor whose base is only now
(mis)captured as 29 - 2 = 27. -/
theorem c4_finalize_position :
    (v2WriteAll (v2WriterNew emptyStream) [65, 66]).bind v2WriterPos = some 31 ∧
    (v2WriteAll (v2WriterNew emptyStream) [65, 66]).bind
      (fun w => (v2IntoInner w).map ByteStream.pos) = some 29 := by
  constructor
  · decide
  · decide

/-- Claim C5: for both formats, a stream long enough to hold the header whose
first 9 bytes differ from the expected marker makes reader construction fail
with BadHeader (never BadChecksum, never an I/O error); for format 2 this
holds whatever the digest and payload bytes are, so the marker is rejected
before any checksum comparison. -/
theorem c5_bad_marker :
    (∀ bytes : List Nat, 9 ≤ bytes.length → bytes.take 9 ≠ MARKER1 →
      v1ReaderNew ⟨bytes, 0, 0⟩ = .error .badHeader) ∧
    (∀ bytes : List Nat, 29 ≤ bytes.length → bytes.take 9 ≠ MARKER2 →
      v2ReaderNew ⟨bytes, 0, 0⟩ = .error .badHeader) := by
  constructor
  · intro bytes h1 h2
    unfold v1ReaderNew
    rw [if_neg (by dsimp only; omega)]
    rw [if_neg (by dsimp only; rw [List.drop_zero]; exact h2)]
  · intro bytes h1 h2
    unfold v2ReaderNew
    rw [if_neg (by dsimp only; omega)]
    have hm : ((bytes.drop 0).take 29).take 9 = bytes.take 9 := by
      rw [List.drop_zero, List.take_take]
      rw [(by decide : (9 : Nat) ⊓ 29 = 9)]
    rw [if_neg (by dsimp only; rw [hm]; exact h2)]

/-- Witness for C5 at concrete inputs. -/
theorem c5_bad_marker_witness :
    v1ReaderNew ⟨List.replicate 9 0, 0, 0⟩ = .error .badHeader ∧
    v2ReaderNew ⟨List.replicate 29 1, 0, 0⟩ = .error .badHeader :=
  ⟨c5_bad_marker.1 (List.replicate 9 0) (by decide) (by decide),
   c5_bad_marker.2 (List.replicate 29 1) (by decide) (by decide)⟩

/-- Claim C6: the invariant that the wrapped stream's absolute position equals
base + offset after every cursor operation fails after a rejected FromEnd
seek: on a 13-byte stream with base 9 and offset 0, FromEnd(-5) is rejected
and leaves the wrapped stream at absolute position 0, not base + offset = 9. -/
theorem c6_invariant_broken :
    cursorSeek ⟨none, 0⟩ ⟨MARKER1 ++ [119, 120, 121, 122], 9, 0⟩ (.fromEnd (-5)) =
      some (⟨some 9, 0⟩, ⟨MARKER1 ++ [119, 120, 121, 122], 0, 0⟩, .error .invalidInput) ∧
    (⟨MARKER1 ++ [119, 120, 121, 122], 0, 0⟩ : ByteStream).pos ≠
      9 + (⟨some 9, 0⟩ : Cursor).offset := by
  constructor
  · decide
  · decide

/-- Claim C8: every finalized digest equals the raw 20-byte SHA-1 digest of
the fed bytes with each 4-byte word byte-swapped in place, and this is not a
reversal of the whole digest. -/
theorem c8_digest_word_swap :
    (∀ fed : List Nat, checksumFinish fed = wordSwapSpec (sha1 fed)) ∧
    checksumFinish [] ≠ (sha1 []).reverse :=
  ⟨checksumFinish_eq, by decide⟩

/-- Claim C9: "Hello world!" encodes under format-1 to the marker followed by
the xor-obfuscated bytes; decoding that exact stream reproduces the plaintext;
seeking the reader to logical offset 6 and reading yields "world!"; and in
general the stored payload is the byte-wise xor of the plaintext with 0x80. -/
theorem c9_hello_world :
    v1Encode [72, 101, 108, 108, 111, 32, 119, 111, 114, 108, 100, 33] =
      MARKER1 ++ [200, 229, 236, 236, 239, 160, 247, 239, 242, 236, 228, 161] ∧
    v1Decode (MARKER1 ++ [200, 229, 236, 236, 239, 160, 247, 239, 242, 236, 228, 161]) =
      .ok [72, 101, 108, 108, 111, 32, 119, 111, 114, 108, 100, 33] ∧
    v1SeekRead (MARKER1 ++ [200, 229, 236, 236, 239, 160, 247, 239, 242, 236, 228, 161]) 6 =
      some [119, 111, 114, 108, 100, 33] ∧
    ∀ d : List Nat, v1Encode d = MARKER1 ++ d.map xorByte := by
  refine ⟨by decide, by decide, by decide, v1Encode_eq⟩

/-- Claim C10: writing an empty buffer through the cursor (and hence through a
format-1 writer) returns 0 bytes written, performs no write call on the
wrapped stream (its write counter is untouched), and leaves the cursor's base
and offset and the stream unchanged. -/
theorem c10_empty_write :
    ∀ (c : Cursor) (s : ByteStream),
      cursorWriteChunk c s [] = (c, s, [], 0) ∧ v1WriterWrite c s [] = (c, s, 0) := by
  intro c s
  exact ⟨rfl, rfl⟩

/-- Claim C7: for a cursor with captured base b satisfying the position
invariant, FromStart(n) fails with the invalid-input error exactly when b + n
overflows the u64 address width and otherwise seeks the wrapped stream to
absolute b + n; FromCurrent(delta) is computed in the widened signed domain
and fails with the same error exactly when offset + delta is negative, and
otherwise moves the wrapped stream to base + offset + delta; no overflow case
clamps the position (the state is returned unchanged) or panics (the result is
never the fault value none). -/
theorem c7_seek_start_current (b n off : Nat) (d : Int) (s : ByteStream)
    (_hn : n < U64) (hinv : s.pos = b + off) :
    (U64 ≤ b + n →
      cursorSeek ⟨some b, off⟩ s (.start n) =
        some (⟨some b, off⟩, s, .error .invalidInput)) ∧
    (b + n < U64 →
      cursorSeek ⟨some b, off⟩ s (.start n) =
        some (⟨some b, n⟩, { s with pos := b + n }, .ok n)) ∧
    ((off : Int) + d < 0 →
      cursorSeek ⟨some b, off⟩ s (.current d) =
        some (⟨some b, off⟩, s, .error .invalidInput)) ∧
    (0 ≤ (off : Int) + d → (b : Int) + off + d < (U64 : Int) →
      cursorSeek ⟨some b, off⟩ s (.current d) =
        some (⟨some b, ((off : Int) + d).toNat⟩,
          { s with pos := b + ((off : Int) + d).toNat },
          .ok (((off : Int) + d).toNat))) := by
  refine ⟨?_, ?_, ?_, ?_⟩
  · intro h
    unfold cursorSeek
    dsimp only
    rw [if_neg (by omega)]
  · intro h
    unfold cursorSeek
    dsimp only
    rw [if_pos h]
    unfold streamSeek
    dsimp only
    rw [if_pos (Nat.le_add_right _ _)]
    rw [Nat.add_sub_cancel_left]
  · intro h
    unfold cursorSeek
    dsimp only
    rw [if_neg (by omega)]
  · intro h1 h2
    unfold cursorSeek
    dsimp only
    rw [if_pos h1]
    unfold streamSeek
    dsimp only
    have hcond : 0 ≤ (s.pos : Int) + d ∧ (s.pos : Int) + d < (U64 : Int) := by
      rw [hinv]
      push_cast
      omega
    rw [if_pos hcond]
    have ht : ((s.pos : Int) + d).toNat = b + ((off : Int) + d).toNat := by
      rw [hinv]
      omega
    rw [ht]
    dsimp only
    rw [if_pos (Nat.le_add_right _ _)]
    rw [Nat.add_sub_cancel_left]

/-- Witness for C7 at concrete inputs, exercising both the success paths and
the two overflow rejections. -/
theorem c7_seek_witness :
    cursorSeek ⟨some 9, 3⟩ ⟨List.replicate 40 0, 12, 0⟩ (.start 5) =
      some (⟨some 9, 5⟩, ⟨List.replicate 40 0, 14, 0⟩, .ok 5) ∧
    cursorSeek ⟨some 9, 3⟩ ⟨List.replicate 40 0, 12, 0⟩ (.current (-2)) =
      some (⟨some 9, 1⟩, ⟨List.replicate 40 0, 10, 0⟩, .ok 1) ∧
    cursorSeek ⟨some (U64 - 1), 3⟩ ⟨List.replicate 40 0, U64 + 2, 0⟩ (.start 2) =
      some (⟨some (U64 - 1), 3⟩, ⟨List.replicate 40 0, U64 + 2, 0⟩, .error .invalidInput) ∧
    cursorSeek ⟨some 9, 3⟩ ⟨List.replicate 40 0, 12, 0⟩ (.current (-4)) =
      some (⟨some 9, 3⟩, ⟨List.replicate 40 0, 12, 0⟩, .error .invalidInput) := by
  have h1 := c7_seek_start_current 9 5 3 (-2) ⟨List.replicate 40 0, 12, 0⟩
    (by decide) (by decide)
  have h2 := c7_seek_start_current (U64 - 1) 2 3 0 ⟨List.replicate 40 0, U64 + 2, 0⟩
    (by decide) (by decide)
  have h3 := c7_seek_start_current 9 0 3 (-4) ⟨List.replicate 40 0, 12, 0⟩
    (by decide) (by decide)
  refine ⟨?_, ?_, ?_, ?_⟩
  · have := h1.2.1 (by decide)
    simpa using this
  · have := h1.2.2.2 (by decide) (by decide)
    simpa using this
  · have := h2.1 (by rw [U64]; omega)
    simpa using this
  · have := h3.2.2.1 (by decide)
    simpa using this
